import Mathlib

/-!
A verification development for the mini-redis server
(`solutions/mini_redis/{storage,expiry,protocol,commands,server}.py`).

Modelling conventions:
* Bytes are natural numbers; strings on the wire and in the store are
  represented by their UTF-8 byte sequences (`List Nat`).  Python's
  `str.encode('utf-8')`/`bytes.decode('utf-8')` form a bijection between
  strings and their byte representations, so both are modelled as the
  identity on the byte representation.
* The wall clock (`time.time()`, a float) is modelled as an exact rational
  number; Python's `int(...)` truncation toward zero on a rational is
  `ratTrunc`.
* Python's arbitrary-precision `int` is modelled by `Int`; the decimal
  subset of the `int(...)` string constructor (optional sign followed by
  digits) is `pyIntParse?`, and `str`/f-string rendering of an integer is
  `intToBytes`.
* `asyncio` stream reading is modelled by pure functions from the list of
  bytes available on the stream; `IncompleteReadError` corresponds to the
  stream ending before the requested data.
-/

namespace MiniRedis

/-- UTF-8 bytes of an ASCII string literal (each character below 128). -/
def ascii (s : String) : List Nat := s.toList.map Char.toNat

/-- The CRLF line terminator `\r\n`. -/
def crlf : List Nat := [13, 10]

/-- A single apostrophe byte, used inside Redis error messages. -/
def apos : List Nat := [39]

/-- Decimal rendering of a natural number, as ASCII bytes
(big-endian, `"0"` for zero), mirroring Python `str(n)` for `n ≥ 0`. -/
def natToBytes (n : Nat) : List Nat :=
  if n = 0 then [48] else ((Nat.digits 10 n).map (· + 48)).reverse

/-- Decimal rendering of an integer, as ASCII bytes, mirroring Python
`str(i)` (and f-string interpolation of an `int`). -/
def intToBytes (i : Int) : List Nat :=
  if i < 0 then 45 :: natToBytes (-i).toNat else natToBytes i.toNat

/-- Is the byte an ASCII decimal digit? -/
def isDigitByte (b : Nat) : Bool := decide (48 ≤ b ∧ b ≤ 57)

/-- Parse a non-empty run of ASCII digits as a natural number
(big-endian); `none` if empty or any non-digit occurs. -/
def parseDigits? (l : List Nat) : Option Nat :=
  if l = [] then none
  else if l.all isDigitByte then
    some (Nat.ofDigits 10 ((l.map (· - 48)).reverse))
  else none

/-- The decimal core of Python's `int(...)` constructor on a string or
bytes: an optional `+`/`-` sign followed by one or more digits.  (Python
additionally strips whitespace and allows `_` separators; those inputs
never arise in the verified claims.) -/
def pyIntParse? (l : List Nat) : Option Int :=
  match l with
  | 45 :: rest => (parseDigits? rest).map (fun n => -(Int.ofNat n))
  | 43 :: rest => (parseDigits? rest).map (fun n => Int.ofNat n)
  | _ => (parseDigits? l).map (fun n => Int.ofNat n)

theorem natToBytes_all_digits (n : Nat) : (natToBytes n).all isDigitByte = true := by
  unfold natToBytes
  split
  · decide
  · simp only [List.all_reverse, List.all_map, List.all_eq_true]
    intro d hd
    have h10 : d < 10 := Nat.digits_lt_base (by norm_num) hd
    simp only [Function.comp, isDigitByte, decide_eq_true_eq]
    omega

theorem natToBytes_ne_nil (n : Nat) : natToBytes n ≠ [] := by
  unfold natToBytes
  split
  · simp
  · simp only [ne_eq, List.reverse_eq_nil_iff, List.map_eq_nil_iff]
    exact Nat.digits_ne_nil_iff_ne_zero.mpr (by assumption)

/-- Parsing the decimal rendering of a natural number recovers it. -/
theorem parseDigits_natToBytes (n : Nat) : parseDigits? (natToBytes n) = some n := by
  unfold parseDigits?
  rw [if_neg (natToBytes_ne_nil n), if_pos (natToBytes_all_digits n)]
  congr 1
  unfold natToBytes
  split
  · simp only [Nat.ofDigits]
    omega
  · simp only [List.map_reverse, List.reverse_reverse, List.map_map]
    have hcomp : ((fun b => b - 48) ∘ (fun b => b + 48) : ℕ → ℕ) = id := by
      funext d; simp
    rw [hcomp, List.map_id, Nat.ofDigits_digits]

/-- Parsing the decimal rendering of an integer recovers it. -/
theorem pyIntParse_intToBytes (i : Int) : pyIntParse? (intToBytes i) = some i := by
  unfold intToBytes
  split
  · rename_i hneg
    simp only [pyIntParse?, parseDigits_natToBytes, Option.map_some', Option.some.injEq,
      Int.ofNat_eq_coe]
    omega
  · rename_i hnn
    have hne : ∀ rest, natToBytes i.toNat ≠ 45 :: rest ∧ natToBytes i.toNat ≠ 43 :: rest := by
      intro rest
      constructor <;>
      · intro h
        have := natToBytes_all_digits i.toNat
        rw [h] at this
        simp [isDigitByte] at this
    unfold pyIntParse?
    split
    · rename_i heq; exact absurd heq (hne _).1
    · rename_i heq; exact absurd heq (hne _).2
    · rw [parseDigits_natToBytes]
      simp only [Option.map_some', Option.some.injEq, Int.ofNat_eq_coe]
      omega

/-- Bytes of a decimal rendering are never CR or LF. -/
theorem natToBytes_no_cr_lf (n : Nat) : ∀ b ∈ natToBytes n, b ≠ 13 ∧ b ≠ 10 := by
  intro b hb
  have := natToBytes_all_digits n
  rw [List.all_eq_true] at this
  have h := this b hb
  simp only [isDigitByte, decide_eq_true_eq] at h
  omega

theorem intToBytes_no_cr_lf (i : Int) : ∀ b ∈ intToBytes i, b ≠ 13 ∧ b ≠ 10 := by
  intro b hb
  unfold intToBytes at hb
  split at hb
  · simp only [List.mem_cons] at hb
    rcases hb with hb | hb
    · omega
    · exact natToBytes_no_cr_lf _ b hb
  · exact natToBytes_no_cr_lf _ b hb

/-! ## Protocol codec (`protocol.py`, class RESPParser) -/

/-- Failure modes of the decoder, as the exception classes the session
loop distinguishes: `RESPProtocolError`, `asyncio.IncompleteReadError`,
and any other exception (e.g. `ValueError` from `readexactly` with a
negative count). -/
inductive PErr where
  | protocolError
  | incompleteRead
  | otherError
deriving DecidableEq, Repr

/-- Python `reader.readuntil(b'\r\n')` followed by stripping the CRLF
(`line[:-2]`): returns the bytes before the first CRLF and the bytes
after it, or `none` when the stream ends before a CRLF
(`IncompleteReadError`). -/
def readLine : List Nat → Option (List Nat × List Nat)
  | [] => none
  | b :: rest =>
    if b = 13 ∧ rest.head? = some 10 then some ([], rest.tail)
    else (readLine rest).map (fun p => (b :: p.1, p.2))

/-- Python `RESPParser._parse_bulk_string`: parse one `$<len>\r\n<data>\r\n`
frame from the available bytes, returning the decoded element and the
remaining bytes. -/
def parse_bulk_string (input : List Nat) : Except PErr (List Nat × List Nat) :=
  match readLine input with
  | none => .error .incompleteRead
  | some (line, rest) =>
    match line with
    | 36 :: lenBytes =>
      match pyIntParse? lenBytes with
      | none => .error .protocolError
      | some len =>
        if len = -1 then .error .protocolError
        else if len + 2 < 0 then .error .otherError
        else
          let need := (len + 2).toNat
          if rest.length < need then .error .incompleteRead
          else
            let data := rest.take need
            if data.drop (data.length - 2) = crlf then
              .ok (data.take (data.length - 2), rest.drop need)
            else .error .protocolError
    | _ => .error .protocolError

/-- The `for _ in range(count)` loop of `parse_command`: parse `n` bulk
strings in sequence. -/
def parseBulkN : Nat → List Nat → Except PErr (List (List Nat) × List Nat)
  | 0, rest => .ok ([], rest)
  | n + 1, rest =>
    match parse_bulk_string rest with
    | .error e => .error e
    | .ok (e, rest') =>
      match parseBulkN n rest' with
      | .error err => .error err
      | .ok (es, r) => .ok (e :: es, r)

/-- Python `RESPParser.parse_command`: read the `*<count>\r\n` header and then
`count` bulk strings.  Note that `range(count)` of a negative `count` is
empty, so a negative header yields the empty command. -/
def parse_command (input : List Nat) : Except PErr (List (List Nat) × List Nat) :=
  match readLine input with
  | none => .error .incompleteRead
  | some (line, rest) =>
    match line with
    | 42 :: countBytes =>
      match pyIntParse? countBytes with
      | none => .error .protocolError
      | some count => parseBulkN count.toNat rest
    | _ => .error .protocolError

/-- Python `RESPParser.encode_simple_string`: `+<value>\r\n`. -/
def encode_simple_string (value : List Nat) : List Nat := 43 :: value ++ crlf

/-- Python `RESPParser.encode_error`: `-<message>\r\n`. -/
def encode_error (message : List Nat) : List Nat := 45 :: message ++ crlf

/-- Python `RESPParser.encode_integer`: `:<value>\r\n`. -/
def encode_integer (value : Int) : List Nat := 58 :: intToBytes value ++ crlf

/-- Python `RESPParser.encode_bulk_string`: `$<byte-length>\r\n<data>\r\n`, or
the literal `$-1\r\n` for `None`.  The length field is the UTF-8 byte
length of the value (the value is already its byte representation here). -/
def encode_bulk_string : Option (List Nat) → List Nat
  | none => 36 :: 45 :: 49 :: crlf
  | some value => 36 :: natToBytes value.length ++ crlf ++ value ++ crlf

/-- A reply value passed to `RESPParser.encode_response`: one of the
dataclass wrappers `SimpleString`, `RedisError`, `Integer`, `BulkString`
from `protocol.py` (the `Array` wrapper never nests in this server's
replies; `encode_array` is modelled separately below). -/
inductive RespValue where
  | simpleString (value : List Nat)
  | redisError (value : List Nat)
  | integer (value : Int)
  | bulkString (value : Option (List Nat))
deriving DecidableEq, Repr

/-- Python `RESPParser.encode_response`: dispatch on the wrapper type. -/
def encode_response : RespValue → List Nat
  | .simpleString v => encode_simple_string v
  | .redisError v => encode_error v
  | .integer v => encode_integer v
  | .bulkString v => encode_bulk_string v

/-- Python `RESPParser.encode_array`: `*-1\r\n` for `None`, otherwise
`*<count>\r\n` followed by each element's encoding. -/
def encode_array : Option (List RespValue) → List Nat
  | none => 42 :: 45 :: 49 :: crlf
  | some items =>
    42 :: natToBytes items.length ++ crlf ++ (items.map encode_response).flatten

/-! ## Storage (`storage.py`) -/

/-- A key is a UTF-8 string, represented by its byte sequence. -/
abbrev Key := List Nat

/-- Python `StoreEntry`: a stored value with an optional expiry deadline.
The deadline is a wall-clock instant (`time.time()`-based), modelled as
an exact rational. -/
structure StoreEntry where
  value : List Nat
  expiry_at : Option ℚ := none
deriving DecidableEq, Repr

/-- Python `DataStore`: the in-memory map, modelled as an insertion-ordered
association list (Python `dict[str, StoreEntry]`).  All mutators below
preserve key uniqueness when starting from a store built by them. -/
structure DataStore where
  data : List (Key × StoreEntry)
deriving DecidableEq, Repr

/-- Python `DataStore.get`: the current value, or `None`. -/
def DataStore.get (st : DataStore) (key : Key) : Option (List Nat) :=
  (st.data.lookup key).map StoreEntry.value

/-- Replace the first binding of `key` (dict assignment to an existing
key), or append a new binding (dict insertion). -/
def assocSet (key : Key) (e : StoreEntry) : List (Key × StoreEntry) → List (Key × StoreEntry)
  | [] => [(key, e)]
  | (k', e') :: rest => if k' = key then (key, e) :: rest else (k', e') :: assocSet key e rest

/-- Python `DataStore.set`: store a fresh `StoreEntry(value=value)`; any
existing deadline is discarded because the whole entry is replaced. -/
def DataStore.set (st : DataStore) (key : Key) (value : List Nat) : DataStore :=
  ⟨assocSet key { value := value } st.data⟩

/-- Remove the first binding of `key` (dict `pop`). -/
def assocDelete (key : Key) : List (Key × StoreEntry) → List (Key × StoreEntry)
  | [] => []
  | (k', e') :: rest => if k' = key then rest else (k', e') :: assocDelete key rest

/-- Python `DataStore.delete`: remove the entry, reporting whether it existed. -/
def DataStore.delete (st : DataStore) (key : Key) : DataStore × Bool :=
  if (st.data.lookup key).isSome then (⟨assocDelete key st.data⟩, true) else (st, false)

/-- Python `DataStore.exists`: presence check (`key in self._data`). -/
def DataStore.exists (st : DataStore) (key : Key) : Bool :=
  (st.data.lookup key).isSome

/-- Mutate the first binding of `key` in place, if present. -/
def assocSetExpiry (key : Key) (t : ℚ) : List (Key × StoreEntry) → List (Key × StoreEntry)
  | [] => []
  | (k', e') :: rest =>
    if k' = key then (k', { e' with expiry_at := some t }) :: rest
    else (k', e') :: assocSetExpiry key t rest

/-- Python `DataStore.set_expiry`: set the deadline on an existing entry; no
change if the key is absent. -/
def DataStore.set_expiry (st : DataStore) (key : Key) (expiry_at : ℚ) : DataStore :=
  ⟨assocSetExpiry key expiry_at st.data⟩

/-- Python `DataStore.get_expiry`: the deadline if the key exists and has one. -/
def DataStore.get_expiry (st : DataStore) (key : Key) : Option ℚ :=
  (st.data.lookup key).bind StoreEntry.expiry_at

/-- Python `DataStore.get_all_keys`: snapshot of the current keys. -/
def DataStore.get_all_keys (st : DataStore) : List Key :=
  st.data.map Prod.fst

/-! ## Expiry engine (`expiry.py`) -/

/-- Python `int(q)` on a rational: truncation toward zero, written via
the floor so that concrete instances evaluate symbolically
(`int(q) = ⌊q⌋` for `q ≥ 0`, `-⌊-q⌋` for `q < 0`). -/
def ratTrunc (q : ℚ) : ℤ := if q < 0 then -⌊-q⌋ else ⌊q⌋

/-- Python `ACTIVE_EXPIRY_SAMPLE_SIZE`. -/
def ACTIVE_EXPIRY_SAMPLE_SIZE : Nat := 20

/-- Python `ACTIVE_EXPIRY_THRESHOLD_PERCENT`. -/
def ACTIVE_EXPIRY_THRESHOLD_PERCENT : Nat := 25

/-- Python `ExpiryManager.check_and_remove_expired` (the passive path): if the
key has a deadline and `int(time.time()) >= deadline`, delete the key
and report `true`; otherwise leave the store unchanged and report
`false`.  `now` is the value `time.time()` reads during the call. -/
def check_and_remove_expired (st : DataStore) (now : ℚ) (key : Key) : DataStore × Bool :=
  match st.get_expiry key with
  | none => (st, false)
  | some expiry_time =>
    if ((ratTrunc now : ℤ) : ℚ) ≥ expiry_time then ((st.delete key).1, true)
    else (st, false)

/-- The sampling loop body of `_active_expiry_cycle`: run the passive
check on each sampled key in order, counting deletions
(`sum(1 for key in sampled_keys if check_and_remove_expired(key))`). -/
def processSample (now : ℚ) : DataStore → List Key → DataStore × Nat
  | st, [] => (st, 0)
  | st, k :: ks =>
    let c := check_and_remove_expired st now k
    let r := processSample now c.1 ks
    (r.1, (if c.2 then 1 else 0) + r.2)

/-- Python `ExpiryManager._active_expiry_cycle`, fuel-indexed: one cycle is an
inner loop that snapshots the keys, samples up to 20 of them (the random
choice of `random.sample` is abstracted as the `sampler` oracle, a
function of the current store), deletes the expired ones, and repeats
while the deletion rate exceeds 25%.  `none` means the fuel ran out
before the loop ended (the termination theorem shows
`store size + 1` fuel always suffices). -/
def active_expiry_cycle (now : ℚ) (sampler : DataStore → List Key) :
    Nat → DataStore → Option DataStore
  | 0, _ => none
  | fuel + 1, st =>
    if st.get_all_keys = [] then some st
    else
      if ((processSample now st (sampler st)).2 : ℚ)
          / ((min ACTIVE_EXPIRY_SAMPLE_SIZE st.get_all_keys.length : ℕ) : ℚ) * 100
          ≤ (ACTIVE_EXPIRY_THRESHOLD_PERCENT : ℚ)
      then some (processSample now st (sampler st)).1
      else active_expiry_cycle now sampler fuel (processSample now st (sampler st)).1

/-- Modelled from the spec (§4.2, active path): the cycle as the spec
words it — `n = min(20, key_count)`, sample `n` distinct keys, run the
passive path on each, count deletions `d`, end the cycle iff
`d / n ≤ 0.25`, otherwise repeat. -/
def specActiveCycle (now : ℚ) (sampler : DataStore → List Key) :
    Nat → DataStore → Option DataStore
  | 0, _ => none
  | fuel + 1, st =>
    if st.get_all_keys = [] then some st
    else
      if ((processSample now st (sampler st)).2 : ℚ)
          / ((min 20 st.get_all_keys.length : ℕ) : ℚ) ≤ 0.25
      then some (processSample now st (sampler st)).1
      else specActiveCycle now sampler fuel (processSample now st (sampler st)).1

/-- The sampling contract of `random.sample(all_keys, sample_size)`:
`sample_size` distinct elements drawn from the population.  (Uniformity
of the draw is a property of the `random` library, outside this
embedding.) -/
def ValidSample (st : DataStore) (sample : List Key) : Prop :=
  sample.Nodup ∧ (∀ k ∈ sample, k ∈ st.get_all_keys) ∧
    sample.length = min ACTIVE_EXPIRY_SAMPLE_SIZE st.get_all_keys.length

/-! ## Command executor (`commands.py`, class CommandHandler) -/

/-- Python `CommandResult = str | int | None`. -/
inductive CmdResult where
  | str (s : List Nat)
  | int (i : ℤ)
  | nil
deriving DecidableEq, Repr

/-- The outcome of `CommandHandler.execute`: a normal `CommandResult`,
or a raised `CommandError` carrying the user-visible message.  Either
way the store after the call is carried alongside (a `CommandError` can
be raised after the passive check already mutated the store). -/
inductive ExecOut where
  | ok (r : CmdResult) (st : DataStore)
  | err (msg : List Nat) (st : DataStore)
deriving DecidableEq, Repr

/-- Python `str.upper()` restricted to ASCII letters (command names are ASCII). -/
def upperAscii (l : List Nat) : List Nat :=
  l.map (fun b => if 97 ≤ b ∧ b ≤ 122 then b - 32 else b)

/-- Python `ERR wrong number of arguments for '<name>' command`. -/
def arityMsg (name : String) : List Nat :=
  ascii "ERR wrong number of arguments for " ++ apos ++ ascii name ++ apos ++ ascii " command"

/-- Python `ERR unknown command '<NAME>'`. -/
def unknownMsg (cmdName : List Nat) : List Nat :=
  ascii "ERR unknown command " ++ apos ++ cmdName ++ apos

/-- Python `ERR value is not an integer or out of range`. -/
def notIntMsg : List Nat := ascii "ERR value is not an integer or out of range"

/-- Python `CommandHandler.execute_ping`. -/
def execute_ping (st : DataStore) : ExecOut := .ok (.str (ascii "PONG")) st

/-- Python `CommandHandler.execute_get`: passive check, then read. -/
def execute_get (st : DataStore) (now : ℚ) (key : Key) : ExecOut :=
  let st1 := (check_and_remove_expired st now key).1
  match st1.get key with
  | some v => .ok (.str v) st1
  | none => .ok .nil st1

/-- Python `CommandHandler.execute_set`: unconditional write, reply `"OK"`. -/
def execute_set (st : DataStore) (key : Key) (value : List Nat) : ExecOut :=
  .ok (.str (ascii "OK")) (st.set key value)

/-- Python `CommandHandler.execute_incr`: passive check; absent key becomes
`"1"`; otherwise parse with Python's unbounded `int`, add one, store the
decimal string. -/
def execute_incr (st : DataStore) (now : ℚ) (key : Key) : ExecOut :=
  let st1 := (check_and_remove_expired st now key).1
  match st1.get key with
  | none => .ok (.int 1) (st1.set key (ascii "1"))
  | some current_value =>
    match pyIntParse? current_value with
    | none => .err notIntMsg st1
    | some int_value => .ok (.int (int_value + 1)) (st1.set key (intToBytes (int_value + 1)))

/-- Python `CommandHandler.execute_expire`: passive check; 0 when the key is
absent, otherwise set the deadline to `time.time() + seconds` (the raw
float clock reading, *not* the truncated one the passive path compares
against) and reply 1.  There is no check for negative `seconds`. -/
def execute_expire (st : DataStore) (now : ℚ) (key : Key) (seconds : ℤ) : ExecOut :=
  let st1 := (check_and_remove_expired st now key).1
  if ¬ st1.exists key then .ok (.int 0) st1
  else .ok (.int 1) (st1.set_expiry key (now + (seconds : ℚ)))

/-- Python `CommandHandler.execute_ttl`: passive check; -2 when absent, -1 when
no deadline, otherwise `max(0, int(deadline - time.time()))`. -/
def execute_ttl (st : DataStore) (now : ℚ) (key : Key) : ExecOut :=
  let st1 := (check_and_remove_expired st now key).1
  if ¬ st1.exists key then .ok (.int (-2)) st1
  else
    match st1.get_expiry key with
    | none => .ok (.int (-1)) st1
    | some expiry_at => .ok (.int (max 0 (ratTrunc (expiry_at - now)))) st1

/-- Python `CommandHandler.execute`: uppercase the name, check arity, dispatch.
`now` is the wall-clock reading for the command's `time.time()` calls
(modelled as a single instant per command invocation). -/
def execute (st : DataStore) (now : ℚ) (command : List (List Nat)) : ExecOut :=
  match command with
  | [] => .err (ascii "ERR empty command") st
  | name :: args =>
    let cmd_name := upperAscii name
    if cmd_name = ascii "PING" then
      match args with
      | [] => execute_ping st
      | _ => .err (arityMsg "ping") st
    else if cmd_name = ascii "GET" then
      match args with
      | [k] => execute_get st now k
      | _ => .err (arityMsg "get") st
    else if cmd_name = ascii "SET" then
      match args with
      | [k, v] => execute_set st k v
      | _ => .err (arityMsg "set") st
    else if cmd_name = ascii "INCR" then
      match args with
      | [k] => execute_incr st now k
      | _ => .err (arityMsg "incr") st
    else if cmd_name = ascii "EXPIRE" then
      match args with
      | [k, s] =>
        match pyIntParse? s with
        | none => .err notIntMsg st
        | some seconds => execute_expire st now k seconds
      | _ => .err (arityMsg "expire") st
    else if cmd_name = ascii "TTL" then
      match args with
      | [k] => execute_ttl st now k
      | _ => .err (arityMsg "ttl") st
    else .err (unknownMsg cmd_name) st

/-! ## Session loop (`server.py`, ClientHandler.handle) -/

/-- Outcome of one iteration of the session loop on the available input
bytes: either a reply is written and the connection continues with the
remaining bytes, or the loop breaks and the connection is closed with no
reply for that frame (`RESPProtocolError`, `IncompleteReadError`, and
any other decoder exception all `break`). -/
inductive SessionStep where
  | reply (resp : List Nat) (st : DataStore) (rest : List Nat)
  | closeConn (st : DataStore)
deriving DecidableEq, Repr

/-- One iteration of `ClientHandler.handle`'s loop: decode, execute,
encode.  A `str` result is encoded as a Simple String, an `int` result
as an Integer, `None` as the null Bulk String; a `CommandError` is
encoded as an Error and the connection is kept. -/
def handleOne (st : DataStore) (now : ℚ) (input : List Nat) : SessionStep :=
  match parse_command input with
  | .error _ => .closeConn st
  | .ok (command, rest) =>
    match execute st now command with
    | .err msg st' => .reply (encode_error msg) st' rest
    | .ok (.str s) st' => .reply (encode_simple_string s) st' rest
    | .ok (.int i) st' => .reply (encode_integer i) st' rest
    | .ok .nil st' => .reply (encode_bulk_string none) st' rest

/-! ## Round-trip lemmas for the codec -/

/-- Reading a line whose body contains no CR stops exactly at the
appended CRLF. -/
theorem readLine_append (l : List Nat) (rest : List Nat) (hl : ∀ b ∈ l, b ≠ 13) :
    readLine (l ++ 13 :: 10 :: rest) = some (l, rest) := by
  induction l with
  | nil =>
    simp [readLine]
  | cons b l ih =>
    have hb : b ≠ 13 := hl b (by simp)
    have ih' := ih (fun x hx => hl x (by simp [hx]))
    simp only [List.cons_append, readLine, List.append_eq]
    rw [if_neg (fun h => hb h.1), ih']
    rfl

theorem natToBytes_no_cr (n : Nat) : ∀ b ∈ natToBytes n, b ≠ 13 :=
  fun b hb => (natToBytes_no_cr_lf n b hb).1

/-- Specialisation of digit-string round-tripping to naturals. -/
theorem pyIntParse_intToBytes' (n : Nat) :
    pyIntParse? (natToBytes n) = some (Int.ofNat n) := by
  have h := pyIntParse_intToBytes (Int.ofNat n)
  rw [intToBytes] at h
  split at h
  · rename_i hlt
    exact absurd hlt (Int.not_lt.mpr (Int.ofNat_zero_le n))
  · simpa using h

/-- Decoding an encoded bulk string recovers the payload byte-for-byte,
leaving the rest of the stream untouched (the payload may contain CRLF:
framing is by byte count). -/
theorem parse_bulk_string_encode (e rest : List Nat) :
    parse_bulk_string (encode_bulk_string (some e) ++ rest) = .ok (e, rest) := by
  have hline : readLine (encode_bulk_string (some e) ++ rest)
      = some (36 :: natToBytes e.length, e ++ 13 :: 10 :: rest) := by
    have := readLine_append (36 :: natToBytes e.length) (e ++ 13 :: 10 :: rest)
      (by
        intro b hb
        simp only [List.mem_cons] at hb
        rcases hb with hb | hb
        · omega
        · exact natToBytes_no_cr e.length b hb)
    simpa [encode_bulk_string, crlf, List.append_assoc] using this
  rw [parse_bulk_string, hline]
  simp only
  rw [show pyIntParse? (natToBytes e.length) = some (Int.ofNat e.length) from
    pyIntParse_intToBytes' e.length]
  simp only [Int.ofNat_eq_coe]
  rw [if_neg (by omega), if_neg (by omega)]
  have hneed : ((e.length : ℤ) + 2).toNat = e.length + 2 := by omega
  rw [hneed]
  have hsplit : e ++ 13 :: 10 :: rest = (e ++ [13, 10]) ++ rest := by simp
  have hlen2 : (e ++ [13, 10]).length = e.length + 2 := by simp
  rw [hsplit]
  rw [if_neg (by simp)]
  rw [show (e ++ [13, 10]) ++ rest = ((e ++ [13, 10]) ++ rest) from rfl]
  rw [← hlen2, List.take_left, List.drop_left]
  have htake : (e ++ [13, 10]).take ((e ++ [13, 10]).length - 2) = e := by
    simp [hlen2]
  have hdrop : (e ++ [13, 10]).drop ((e ++ [13, 10]).length - 2) = crlf := by
    rw [hlen2]
    simp [crlf]
  rw [hdrop, if_pos rfl, htake]

/-- Decoding `n` encoded bulk strings in sequence recovers them all. -/
theorem parseBulkN_encode (es : List (List Nat)) (rest : List Nat) :
    parseBulkN es.length ((es.map (fun e => encode_bulk_string (some e))).flatten ++ rest)
      = .ok (es, rest) := by
  induction es generalizing rest with
  | nil => simp [parseBulkN]
  | cons e es ih =>
    simp only [List.map_cons, List.flatten_cons, List.length_cons, List.append_assoc,
      parseBulkN, parse_bulk_string_encode, ih rest]

/-- C3.  For every sequence `c` of UTF-8 strings (represented by their
byte sequences; arbitrary bytes including embedded CR/LF permitted in
each element, none null), decoding the bytes produced by encoding `c` as
a RESP array of bulk strings yields exactly `c` and consumes exactly
those bytes: `parse_command` composed with `encode_array` of
`BulkString`-wrapped elements is the identity.  (Proved for all `c`,
which covers in particular the non-empty commands of the claim.) -/
theorem parse_command_encode_array_roundtrip (c : List (List Nat)) (extra : List Nat) :
    parse_command (encode_array (some (c.map (fun e => RespValue.bulkString (some e)))) ++ extra)
      = .ok (c, extra) := by
  have hline : readLine (encode_array (some (c.map (fun e => RespValue.bulkString (some e))))
        ++ extra)
      = some (42 :: natToBytes c.length,
          ((c.map (fun e => encode_bulk_string (some e))).flatten ++ extra)) := by
    have hbody : (c.map (fun e => RespValue.bulkString (some e))).map encode_response
        = c.map (fun e => encode_bulk_string (some e)) := by
      simp [encode_response]
    have := readLine_append (42 :: natToBytes c.length)
      ((c.map (fun e => encode_bulk_string (some e))).flatten ++ extra)
      (by
        intro b hb
        simp only [List.mem_cons] at hb
        rcases hb with hb | hb
        · omega
        · exact natToBytes_no_cr c.length b hb)
    simpa [encode_array, crlf, hbody, List.append_assoc, List.length_map] using this
  rw [parse_command, hline]
  simp only
  rw [pyIntParse_intToBytes' c.length]
  simp only [Int.toNat_ofNat]
  exact parseBulkN_encode c extra

/-- A `*<count>` header with a negative count is accepted by
`parse_command` and yields the empty command, because Python's
`range(count)` over a negative count is empty. -/
theorem parse_command_negative_count (n : ℤ) (hn : n < 0) (rest : List Nat) :
    parse_command (42 :: intToBytes n ++ crlf ++ rest) = .ok ([], rest) := by
  have hline : readLine (42 :: intToBytes n ++ crlf ++ rest)
      = some (42 :: intToBytes n, rest) := by
    have := readLine_append (42 :: intToBytes n) rest
      (by
        intro b hb
        simp only [List.mem_cons] at hb
        rcases hb with hb | hb
        · omega
        · exact (intToBytes_no_cr_lf n b hb).1)
    simpa [crlf, List.append_assoc] using this
  rw [parse_command, hline]
  simp only
  rw [pyIntParse_intToBytes n]
  have h0 : n.toNat = 0 := by omega
  simp only [h0]
  rfl

/-! ## Store and expiry lemmas -/

theorem lookup_assocSet_self (key : Key) (e : StoreEntry) (l : List (Key × StoreEntry)) :
    (assocSet key e l).lookup key = some e := by
  induction l with
  | nil => simp [assocSet, List.lookup]
  | cons p l ih =>
    obtain ⟨k', e'⟩ := p
    by_cases h : k' = key
    · simp [assocSet, h, List.lookup]
    · simp only [assocSet, if_neg h, List.lookup]
      have hbeq : (key == k') = false := by simpa using Ne.symm h
      rw [hbeq]
      exact ih

theorem assocDelete_length_le (key : Key) (l : List (Key × StoreEntry)) :
    (assocDelete key l).length ≤ l.length := by
  induction l with
  | nil => simp [assocDelete]
  | cons p l ih =>
    obtain ⟨k', e'⟩ := p
    by_cases h : k' = key
    · simp only [assocDelete, if_pos h, List.length_cons]
      omega
    · simp only [assocDelete, if_neg h, List.length_cons]
      omega

theorem assocDelete_length_lt (key : Key) (l : List (Key × StoreEntry))
    (h : (l.lookup key).isSome) : (assocDelete key l).length < l.length := by
  induction l with
  | nil => simp [List.lookup] at h
  | cons p l ih =>
    obtain ⟨k', e'⟩ := p
    by_cases hk : k' = key
    · simp only [assocDelete, if_pos hk, List.length_cons]
      omega
    · simp only [List.lookup] at h
      have hbeq : (key == k') = false := by simpa using Ne.symm hk
      rw [hbeq] at h
      simp only [assocDelete, if_neg hk, List.length_cons]
      exact Nat.succ_lt_succ (ih h)

/-- Dispatch equation: passive check on a key with no deadline. -/
theorem check_eq_none (st : DataStore) (now : ℚ) (key : Key)
    (h : st.get_expiry key = none) :
    check_and_remove_expired st now key = (st, false) := by
  unfold check_and_remove_expired
  rw [h]

/-- Dispatch equation: passive check on a key with a deadline. -/
theorem check_eq_some (st : DataStore) (now : ℚ) (key : Key) (e : ℚ)
    (h : st.get_expiry key = some e) :
    check_and_remove_expired st now key
      = if ((ratTrunc now : ℤ) : ℚ) ≥ e then ((st.delete key).1, true) else (st, false) := by
  unfold check_and_remove_expired
  rw [h]

theorem lookup_isSome_of_get_expiry (st : DataStore) (key : Key) (e : ℚ)
    (h : st.get_expiry key = some e) : (st.data.lookup key).isSome := by
  unfold DataStore.get_expiry at h
  cases hlk : st.data.lookup key with
  | none => rw [hlk] at h; simp at h
  | some _ => simp

/-- A passive check that reports `false` leaves the store untouched. -/
theorem check_false_eq (st : DataStore) (now : ℚ) (key : Key)
    (h : (check_and_remove_expired st now key).2 = false) :
    (check_and_remove_expired st now key).1 = st := by
  cases hce : st.get_expiry key with
  | none => rw [check_eq_none st now key hce]
  | some e =>
    rw [check_eq_some st now key e hce] at h ⊢
    split at h
    · simp at h
    · rename_i hcond
      rw [if_neg hcond]

/-- The passive check never grows the store. -/
theorem check_length_le (st : DataStore) (now : ℚ) (key : Key) :
    (check_and_remove_expired st now key).1.data.length ≤ st.data.length := by
  cases hce : st.get_expiry key with
  | none => rw [check_eq_none st now key hce]
  | some e =>
    rw [check_eq_some st now key e hce]
    split
    · have hl : (st.data.lookup key).isSome := lookup_isSome_of_get_expiry st key e hce
      simp only [DataStore.delete, if_pos hl]
      exact assocDelete_length_le key st.data
    · exact le_refl _

/-- A passive check that reports `true` strictly shrinks the store. -/
theorem check_true_length_lt (st : DataStore) (now : ℚ) (key : Key)
    (h : (check_and_remove_expired st now key).2 = true) :
    (check_and_remove_expired st now key).1.data.length < st.data.length := by
  cases hce : st.get_expiry key with
  | none => rw [check_eq_none st now key hce] at h; simp at h
  | some e =>
    rw [check_eq_some st now key e hce] at h ⊢
    split at h
    · rename_i hcond
      rw [if_pos hcond]
      have hl : (st.data.lookup key).isSome := lookup_isSome_of_get_expiry st key e hce
      simp only [DataStore.delete, if_pos hl]
      exact assocDelete_length_lt key st.data hl
    · simp at h

/-- Processing a sample never grows the store. -/
theorem processSample_length_le (now : ℚ) (ks : List Key) :
    ∀ st : DataStore, ((processSample now st ks).1).data.length ≤ st.data.length := by
  induction ks with
  | nil => intro st; simp [processSample]
  | cons k ks ih =>
    intro st
    simp only [processSample]
    exact le_trans (ih _) (check_length_le st now k)

/-- If a sample pass deleted at least one key, the store strictly shrank. -/
theorem processSample_pos_length_lt (now : ℚ) (ks : List Key) :
    ∀ st : DataStore, 0 < (processSample now st ks).2 →
      ((processSample now st ks).1).data.length < st.data.length := by
  induction ks with
  | nil => intro st h; simp [processSample] at h
  | cons k ks ih =>
    intro st h
    simp only [processSample] at h ⊢
    cases hc : (check_and_remove_expired st now k).2 with
    | true =>
      exact lt_of_le_of_lt (processSample_length_le now ks _)
        (check_true_length_lt st now k hc)
    | false =>
      rw [hc] at h
      simp only [Bool.false_eq_true, if_false, Nat.zero_add] at h
      rw [check_false_eq st now k hc] at h ⊢
      exact ih _ h

/-! ## Claim theorems: active expiry -/

/-- C9.  A single invocation of the active-expiry cycle terminates for
any fixed store contents and clock reading: fuel exceeding the number of
stored keys is never exhausted, because every inner iteration that does
not end the cycle deleted at least one key, so the store size strictly
decreases across iterations. -/
theorem active_expiry_cycle_terminates (now : ℚ) (sampler : DataStore → List Key) :
    ∀ (fuel : ℕ) (st : DataStore), st.data.length < fuel →
      (active_expiry_cycle now sampler fuel st).isSome = true := by
  intro fuel
  induction fuel with
  | zero => intro st h; omega
  | succ f ih =>
    intro st h
    rw [active_expiry_cycle]
    by_cases hk : st.get_all_keys = []
    · rw [if_pos hk]
      rfl
    · rw [if_neg hk]
      by_cases hrate : ((processSample now st (sampler st)).2 : ℚ)
          / ((min ACTIVE_EXPIRY_SAMPLE_SIZE st.get_all_keys.length : ℕ) : ℚ) * 100
          ≤ (ACTIVE_EXPIRY_THRESHOLD_PERCENT : ℚ)
      · rw [if_pos hrate]
        rfl
      · rw [if_neg hrate]
        have hd : 0 < (processSample now st (sampler st)).2 := by
          by_contra h0
          push_neg at h0
          have hd0 : (processSample now st (sampler st)).2 = 0 := by omega
          apply hrate
          rw [hd0]
          norm_num
        have hlt := processSample_pos_length_lt now (sampler st) st hd
        exact ih _ (by omega)

/-- The witness hypothesis of `active_expiry_cycle_terminates` holds at
a concrete one-key store with one unit of spare fuel. -/
theorem active_expiry_cycle_terminates_witness :
    (active_expiry_cycle 10 (fun s => s.get_all_keys) 2
      (⟨[(ascii "k", { value := ascii "v", expiry_at := some 0 })]⟩ : DataStore)).isSome
      = true :=
  active_expiry_cycle_terminates 10 (fun s => s.get_all_keys) 2
    ⟨[(ascii "k", { value := ascii "v", expiry_at := some 0 })]⟩ (by decide)

/-- C8.  For every sampling oracle satisfying the `random.sample`
contract (distinct keys drawn from the snapshot, `min(20, key_count)`
of them), the code's active-expiry cycle coincides with the cycle as
the spec words it: snapshot all keys and end if there are none,
passive-check each sampled key counting deletions `d`, end the cycle
iff `d / n ≤ 0.25`, else immediately resample — with the constants 20
and 25% exactly.  (Uniformity of the draw is a property of Python's
`random.sample` itself and is abstracted into the oracle.) -/
theorem active_expiry_cycle_matches_spec (now : ℚ) (sampler : DataStore → List Key)
    (hs : ∀ s : DataStore, s.get_all_keys.Nodup → ValidSample s (sampler s)) :
    ∀ (fuel : ℕ) (st : DataStore),
      active_expiry_cycle now sampler fuel st = specActiveCycle now sampler fuel st := by
  intro fuel
  induction fuel with
  | zero => intro st; rfl
  | succ f ih =>
    intro st
    rw [active_expiry_cycle, specActiveCycle]
    by_cases hk : st.get_all_keys = []
    · rw [if_pos hk, if_pos hk]
    · rw [if_neg hk, if_neg hk, ih]
      refine if_congr ?_ rfl rfl
      rw [show ACTIVE_EXPIRY_SAMPLE_SIZE = 20 from rfl,
        show ((ACTIVE_EXPIRY_THRESHOLD_PERCENT : ℕ) : ℚ) = 25 by
          norm_num [ACTIVE_EXPIRY_THRESHOLD_PERCENT],
        show (0.25 : ℚ) = 25 / 100 by norm_num,
        le_div_iff₀ (by norm_num : (0 : ℚ) < 100)]

/-- A sampler satisfying the `random.sample` contract, for the witness:
take the first `min(20, key_count)` snapshot keys. -/
def takeSampler : DataStore → List Key :=
  fun s => s.get_all_keys.take (min ACTIVE_EXPIRY_SAMPLE_SIZE s.get_all_keys.length)

theorem takeSampler_valid :
    ∀ s : DataStore, s.get_all_keys.Nodup → ValidSample s (takeSampler s) := by
  intro s hn
  refine ⟨?_, ?_, ?_⟩
  · exact List.Nodup.sublist (List.take_sublist _ _) hn
  · intro k hk
    exact List.take_subset _ _ hk
  · rw [takeSampler, List.length_take]
    omega

/-- The witness hypothesis of `active_expiry_cycle_matches_spec` holds
for the concrete `takeSampler` oracle; the conclusion is evaluated at a
one-key store that drives a full resampling iteration. -/
theorem active_expiry_cycle_matches_spec_witness :
    active_expiry_cycle 10 takeSampler 2
        (⟨[(ascii "k", { value := ascii "v", expiry_at := some 0 })]⟩ : DataStore)
      = specActiveCycle 10 takeSampler 2
        ⟨[(ascii "k", { value := ascii "v", expiry_at := some 0 })]⟩ :=
  active_expiry_cycle_matches_spec 10 takeSampler takeSampler_valid 2
    ⟨[(ascii "k", { value := ascii "v", expiry_at := some 0 })]⟩

/-! ## Claim theorems: commands and session loop -/

theorem get_set_self (st : DataStore) (k : Key) (v : List Nat) :
    (st.set k v).get k = some v := by
  unfold DataStore.set DataStore.get
  rw [lookup_assocSet_self]
  rfl

theorem get_expiry_set_self (st : DataStore) (k : Key) (v : List Nat) :
    (st.set k v).get_expiry k = none := by
  unfold DataStore.set DataStore.get_expiry
  rw [lookup_assocSet_self]
  rfl

theorem exists_set_self (st : DataStore) (k : Key) (v : List Nat) :
    (st.set k v).exists k = true := by
  unfold DataStore.set DataStore.exists
  rw [lookup_assocSet_self]
  rfl

/-- C6.  From any prior store state — including one where `k` holds an
entry with a deadline — `SET k v` replies `"OK"` and leaves `k` mapped
to `v` with no deadline, so a subsequent `TTL k` (at any later clock
reading) replies Integer -1: SET discards any existing deadline. -/
theorem set_clears_ttl (st : DataStore) (now' : ℚ) (k v : List Nat) :
    execute_set st k v = .ok (.str (ascii "OK")) (st.set k v) ∧
    (st.set k v).get k = some v ∧
    (st.set k v).get_expiry k = none ∧
    execute_ttl (st.set k v) now' k = .ok (.int (-1)) (st.set k v) := by
  refine ⟨rfl, get_set_self st k v, get_expiry_set_self st k v, ?_⟩
  unfold execute_ttl
  simp only [check_eq_none (st.set k v) now' k (get_expiry_set_self st k v),
    exists_set_self st k v, get_expiry_set_self st k v]
  rfl

/-- C10.  INCR performs exact unbounded integer arithmetic: for every
key holding a value that parses as a signed decimal integer `m` of any
magnitude (the key having no deadline, so the passive check does not
interfere), INCR replies Integer `m + 1` and stores the decimal string
of `m + 1`; the `out of range` half of the error message is never
triggered by magnitude. -/
theorem incr_unbounded (st : DataStore) (now : ℚ) (key : Key) (v : List Nat) (m : ℤ)
    (hv : st.get key = some v) (hp : pyIntParse? v = some m)
    (he : st.get_expiry key = none) :
    execute_incr st now key = .ok (.int (m + 1)) (st.set key (intToBytes (m + 1))) := by
  unfold execute_incr
  simp only [check_eq_none st now key he, hv, hp]

/-- The hypotheses of `incr_unbounded` hold at a store whose counter
holds `2^63` (beyond a signed 64-bit register), and INCR yields
`2^63 + 1`. -/
theorem incr_unbounded_witness :
    execute_incr (⟨[(ascii "c", { value := ascii "9223372036854775808" })]⟩ : DataStore)
        0 (ascii "c")
      = .ok (.int 9223372036854775809)
          ((⟨[(ascii "c", { value := ascii "9223372036854775808" })]⟩ : DataStore).set
            (ascii "c") (intToBytes 9223372036854775809)) :=
  incr_unbounded ⟨[(ascii "c", { value := ascii "9223372036854775808" })]⟩ 0 (ascii "c")
    (ascii "9223372036854775808") 9223372036854775808 rfl (by decide) rfl

/-- C5 counterexample.  `PING hello` does not echo: the code replies
the arity `CommandError` (encoded as a RESP Error, which is in
particular not the claimed Bulk-String echo). -/
theorem ping_one_arg_rejected :
    handleOne (⟨[]⟩ : DataStore) 0 (ascii "*2\r\n$4\r\nPING\r\n$5\r\nhello\r\n")
      = .reply (encode_error (arityMsg "ping")) ⟨[]⟩ [] ∧
    encode_error (arityMsg "ping") ≠ encode_bulk_string (some (ascii "hello")) :=
  ⟨rfl, by decide⟩

/-- C5 amended.  `PING` with zero arguments replies `"PONG"` (a `str`
result, wire-encoded as a Simple String), and `PING` with exactly one
argument raises `CommandError` `ERR wrong number of arguments for
'ping' command` (the store unchanged), for every store, clock and
argument. -/
theorem ping_arity (st : DataStore) (now : ℚ) (a : List Nat) :
    execute st now [ascii "PING"] = .ok (.str (ascii "PONG")) st ∧
    execute st now [ascii "PING", a] = .err (arityMsg "ping") st :=
  ⟨rfl, rfl⟩

/-- C7 counterexample.  The frame `*-1\r\n` is not rejected by the
decoder: it parses as the empty command, the executor raises
`CommandError("ERR empty command")`, and the server replies with an
Error frame, keeping the connection open. -/
theorem negative_count_not_protocol_error :
    parse_command (ascii "*-1\r\n") = .ok ([], []) ∧
    handleOne (⟨[]⟩ : DataStore) 0 (ascii "*-1\r\n")
      = .reply (encode_error (ascii "ERR empty command")) ⟨[]⟩ [] :=
  ⟨rfl, rfl⟩

/-- C7 amended.  For every frame whose array header carries a negative
count, the decoder yields the empty command (Python's `range` of a
negative count is empty) and the session replies with the encoded
`CommandError` `ERR empty command`, keeping the connection open; no
`ProtocolError` is raised and the connection is not closed. -/
theorem negative_count_yields_empty_command (n : ℤ) (hn : n < 0) (st : DataStore)
    (now : ℚ) (rest : List Nat) :
    parse_command (42 :: intToBytes n ++ crlf ++ rest) = .ok ([], rest) ∧
    handleOne st now (42 :: intToBytes n ++ crlf ++ rest)
      = .reply (encode_error (ascii "ERR empty command")) st rest := by
  have hp := parse_command_negative_count n hn rest
  refine ⟨hp, ?_⟩
  unfold handleOne
  rw [hp]
  rfl

/-- The hypothesis of `negative_count_yields_empty_command` holds at
`n = -1` (the literal `*-1\r\n` frame) on the empty store. -/
theorem negative_count_yields_empty_command_witness :
    parse_command (42 :: intToBytes (-1) ++ crlf ++ []) = .ok ([], []) ∧
    handleOne (⟨[]⟩ : DataStore) 0 (42 :: intToBytes (-1) ++ crlf ++ [])
      = .reply (encode_error (ascii "ERR empty command")) ⟨[]⟩ [] :=
  negative_count_yields_empty_command (-1) (by decide) ⟨[]⟩ 0 []

/-- C1.  The reply to `GET foo` on a store where `foo ↦ "bar"` is the
Simple String `+bar\r\n`, not the Bulk String `$3\r\nbar\r\n` required
by the claim (the session loop encodes every `str` result as a Simple
String); only the absent-key half of the claim holds (`$-1\r\n`). -/
theorem get_reply_is_simple_string :
    handleOne (⟨[(ascii "foo", { value := ascii "bar" })]⟩ : DataStore) 0
        (ascii "*2\r\n$3\r\nGET\r\n$3\r\nfoo\r\n")
      = .reply (encode_simple_string (ascii "bar"))
          ⟨[(ascii "foo", { value := ascii "bar" })]⟩ [] ∧
    encode_simple_string (ascii "bar") ≠ encode_bulk_string (some (ascii "bar")) ∧
    handleOne (⟨[(ascii "foo", { value := ascii "bar" })]⟩ : DataStore) 0
        (ascii "*2\r\n$3\r\nGET\r\n$3\r\nnil\r\n")
      = .reply (encode_bulk_string none)
          ⟨[(ascii "foo", { value := ascii "bar" })]⟩ [] :=
  ⟨rfl, by decide, rfl⟩

/-- Python `EXPIRE` on a present key with no deadline: the passive check is a
no-op, the key exists, so the deadline becomes `now + seconds` and the
reply is Integer 1 — for any `seconds`, negative included. -/
theorem execute_expire_exists (st : DataStore) (now : ℚ) (key : Key) (seconds : ℤ)
    (he : st.get_expiry key = none) (hx : st.exists key = true) :
    execute_expire st now key seconds
      = .ok (.int 1) (st.set_expiry key (now + (seconds : ℚ))) := by
  unfold execute_expire
  simp [check_eq_none st now key he, hx]

/-- C4.  `EXPIRE k -1` on an existing key does not fail: the code
replies Integer 1 and installs the past deadline `now - 1` (at clock
1000, deadline 999) — there is no negative-seconds check and no
`ERR invalid expire time in 'expire' command` error path. -/
theorem negative_expire_accepted :
    execute (⟨[(ascii "k", { value := ascii "v" })]⟩ : DataStore) 1000
        [ascii "EXPIRE", ascii "k", ascii "-1"]
      = .ok (.int 1) ⟨[(ascii "k", { value := ascii "v", expiry_at := some 999 })]⟩ ∧
    (⟨[(ascii "k", { value := ascii "v", expiry_at := some 999 })]⟩ : DataStore).get_expiry
        (ascii "k") = some 999 := by
  refine ⟨?_, rfl⟩
  rw [show execute (⟨[(ascii "k", { value := ascii "v" })]⟩ : DataStore) 1000
        [ascii "EXPIRE", ascii "k", ascii "-1"]
      = execute_expire (⟨[(ascii "k", { value := ascii "v" })]⟩ : DataStore) 1000
        (ascii "k") (-1) from rfl]
  rw [execute_expire_exists (⟨[(ascii "k", { value := ascii "v" })]⟩ : DataStore) 1000
    (ascii "k") (-1) rfl rfl]
  rw [show (⟨[(ascii "k", { value := ascii "v" })]⟩ : DataStore).set_expiry (ascii "k")
        ((1000 : ℚ) + ((-1 : ℤ) : ℚ))
      = (⟨[(ascii "k", ⟨ascii "v", some ((1000 : ℚ) + ((-1 : ℤ) : ℚ))⟩)]⟩ : DataStore)
      from rfl]
  rw [show (1000 : ℚ) + ((-1 : ℤ) : ℚ) = 999 by push_cast; norm_num]

/-- C2.  Passive expiry is not total on the code: `EXPIRE k 0` at clock
1000.5 installs the float deadline 1000.5 and replies Integer 1, but a
`GET k` at clock 1000.9 — where `deadline(k) = 1000.5 < now` — still
returns the value, because the passive check compares the truncated
clock `int(time.time()) = 1000` against the untruncated deadline. -/
theorem expire_zero_then_get_still_present :
    execute_expire (⟨[(ascii "k", { value := ascii "v" })]⟩ : DataStore) (2001 / 2)
        (ascii "k") 0
      = .ok (.int 1)
          ⟨[(ascii "k", { value := ascii "v", expiry_at := some (2001 / 2) })]⟩ ∧
    (⟨[(ascii "k", { value := ascii "v", expiry_at := some (2001 / 2) })]⟩
        : DataStore).get_expiry (ascii "k") = some (2001 / 2) ∧
    ((2001 : ℚ) / 2 < 10009 / 10) ∧
    execute_get (⟨[(ascii "k", { value := ascii "v", expiry_at := some (2001 / 2) })]⟩
        : DataStore) (10009 / 10) (ascii "k")
      = .ok (.str (ascii "v"))
          ⟨[(ascii "k", { value := ascii "v", expiry_at := some (2001 / 2) })]⟩ := by
  refine ⟨?_, rfl, by norm_num, ?_⟩
  · rw [execute_expire_exists (⟨[(ascii "k", { value := ascii "v" })]⟩ : DataStore)
      (2001 / 2) (ascii "k") 0 rfl rfl]
    rw [show (⟨[(ascii "k", { value := ascii "v" })]⟩ : DataStore).set_expiry (ascii "k")
          ((2001 / 2 : ℚ) + ((0 : ℤ) : ℚ))
        = (⟨[(ascii "k", ⟨ascii "v", some ((2001 / 2 : ℚ) + ((0 : ℤ) : ℚ))⟩)]⟩ : DataStore)
        from rfl]
    rw [show (2001 / 2 : ℚ) + ((0 : ℤ) : ℚ) = 2001 / 2 by push_cast; norm_num]
  · have ht : ratTrunc (10009 / 10) = 1000 := by
      rw [ratTrunc, if_neg (by norm_num)]
      norm_num
    have hck : check_and_remove_expired
        (⟨[(ascii "k", ⟨ascii "v", some (2001 / 2)⟩)]⟩ : DataStore)
        (10009 / 10) (ascii "k")
        = ((⟨[(ascii "k", ⟨ascii "v", some (2001 / 2)⟩)]⟩ : DataStore), false) := by
      rw [check_eq_some (⟨[(ascii "k", ⟨ascii "v", some (2001 / 2)⟩)]⟩ : DataStore)
        (10009 / 10) (ascii "k") (2001 / 2) rfl, ht,
        if_neg (by norm_num : ¬ (((1000 : ℤ) : ℚ) ≥ 2001 / 2))]
    unfold execute_get
    simp only [hck]
    rfl

end MiniRedis
